import Mathlib

/-!
Verification development for the ARHF repository (generate → verify → refine
loop for Python functions).  The Python sources are shallowly embedded:

* `src/LLM/LLM_Interface.py` — the candidate executor `test` and the bounded
  verification loop `verified_code_gen`;
* `src/processes/doctests.py` — `suggested_doctest_inputs_generator` and
  `suggested_doctests_list_generator`;
* `src/processes/function_parser.py` — `user_doctests_generator`.

Python runtime values that can occur in doctests are modelled by the inductive
type `Val` (integers, strings, booleans, `None`, tuples and lists); equality on
`Val` is structural, modelling Python `==` on these literals.  Executing a
synthesized candidate function is modelled by a function
`Candidate : List Val → ExecRes`: the list is the positional-argument list of
one Python call, and the result either returns a value or raises an exception
carrying a message (`str(e)`).  The LLM itself is an external collaborator and
enters only as an opaque response function.
-/

namespace ARHF

mutual
/-- A Python value as it appears in a doctest: int, str, bool, None,
tuple or list. -/
inductive Val where
  | int : Int → Val
  | str : String → Val
  | bool : Bool → Val
  | pynone : Val
  | tuple : ValList → Val
  | plist : ValList → Val
deriving DecidableEq, Repr

/-- Element list of a Python tuple/list value (mutual with `Val` so that
decidable equality can be derived). -/
inductive ValList where
  | nil : ValList
  | cons : Val → ValList → ValList
deriving DecidableEq, Repr
end

/-- Convert the embedded element list to a Lean list. -/
def ValList.toList : ValList → List Val
  | .nil => []
  | .cons v vs => v :: vs.toList

/-- Build the embedded element list from a Lean list. -/
def ValList.ofList : List Val → ValList
  | [] => .nil
  | v :: vs => .cons v (ValList.ofList vs)

/-- Shorthand: a Python tuple value from a Lean list of elements. -/
def Val.tup (xs : List Val) : Val := Val.tuple (ValList.ofList xs)

/-- Model of `isinstance(x, tuple)`. -/
def Val.isTuple : Val → Bool
  | .tuple _ => true
  | _ => false

/-- Outcome of one Python call of a candidate function: either a returned
value or a raised exception, carrying the text `str(e)`. -/
inductive ExecRes where
  | ok : Val → ExecRes
  | exn : String → ExecRes
deriving DecidableEq, Repr

/-- Semantics of one synthesized Python function: a map from the
positional-argument list of a call to the call's outcome.  This models
`exec(function_code, env); func = env.get(name); func(...)` for a fixed
code text. -/
abbrev Candidate : Type := List Val → ExecRes

/-- Python argument spreading `f(*x)`: tuples and lists spread to their
elements, strings spread to their characters, non-iterables make the call
expression itself raise `TypeError` (`none` here). -/
def spreadArgs : Val → Option (List Val)
  | .tuple xs => some xs.toList
  | .plist xs => some xs.toList
  | .str s => some (s.toList.map (fun c => Val.str c.toString))
  | _ => none

/-- One doctest case `(input, expected_output)`. -/
abbrev Case : Type := Val × Val

/-- Invocation `func(*doctest[0])` in the tuple branch of `test`
(`src/LLM/LLM_Interface.py:479`): spread the input and call; a non-iterable
input makes the call expression raise `TypeError`, which the surrounding
`try` catches like any other exception. -/
def invokeSpread (cand : Candidate) (input : Val) : ExecRes :=
  match spreadArgs input with
  | some args => cand args
  | none => .exn "TypeError"

/-- Invocation `func(doctest[0])` in the non-tuple branch of `test`
(`src/LLM/LLM_Interface.py:469`): the input is the sole positional
argument. -/
def invokeSingle (cand : Candidate) (input : Val) : ExecRes :=
  cand [input]

/-- The per-case loop body shared by both branches of `test`
(`src/LLM/LLM_Interface.py:467-485`): for each case invoke the candidate,
catch any exception as the actual value `"Error"`, compare a returned value
with the expected output, and append every non-passing case to both result
lists (the first paired with the expected output, the second with the actual
one).  The appends of the Python loop are reproduced by consing along the
structural recursion, which keeps the original case order. -/
def testLoop (invoke : Val → ExecRes) : List Case → List Case × List Case
  | [] => ([], [])
  | dt :: rest =>
    let fr := testLoop invoke rest
    match invoke dt.1 with
    | .ok output =>
      if output = dt.2 then fr
      else (dt :: fr.1, (dt.1, output) :: fr.2)
    | .exn _ => (dt :: fr.1, (dt.1, Val.str "Error") :: fr.2)

/-- Embedding of `test(function_name, function_code, doctests)`
(`src/LLM/LLM_Interface.py:454-486`).  An empty collection short-circuits to
`([], [])`.  Otherwise the calling convention is chosen once, from the shape
of the FIRST case's input (`isinstance(doctests[0][0], tuple)`), and applied
to every case; the candidate's semantics stand in for
`exec`/`local_env.get`. -/
def test (cand : Candidate) (doctests : List Case) : List Case × List Case :=
  match doctests with
  | [] => ([], [])
  | first :: _ =>
    if ¬ first.1.isTuple then testLoop (invokeSingle cand) doctests
    else testLoop (invokeSpread cand) doctests

/-- The sequence of positional-argument lists that `test` passes to the
candidate, in case order (derived instrumentation of
`src/LLM/LLM_Interface.py:466-485`): every case is invoked under the first
case's convention; in the spread branch a non-iterable input raises before
the candidate is entered and so contributes no call. -/
def testCalls (doctests : List Case) : List (List Val) :=
  match doctests with
  | [] => []
  | first :: _ =>
    if ¬ first.1.isTuple then doctests.map (fun dt => [dt.1])
    else doctests.filterMap (fun dt => spreadArgs dt.1)

/-- A collection has uniform shape when every input has the same
tuple/non-tuple shape as the first one (the invariant the spec demands of
collections reaching the executor). -/
def uniformShape : List Case → Bool
  | [] => true
  | first :: rest => rest.all (fun dt => dt.1.isTuple = first.1.isTuple)

/-- The inner accumulation of `suggested_doctest_inputs_generator`
(`src/processes/doctests.py:22-25`): walk one source list, appending each
candidate input that is neither among the user inputs nor already in the
accumulator.  Membership is Python `in`, i.e. value equality. -/
def dedupScan (userInputs : List Val) (acc : List Val) : List Val → List Val
  | [] => acc
  | x :: xs =>
    if x ∈ userInputs ∨ x ∈ acc then dedupScan userInputs acc xs
    else dedupScan userInputs (acc ++ [x]) xs

/-- Embedding of `suggested_doctest_inputs_generator(user_doctests, llm_doctests,
crosshair_doctests, ghostwriter_doctests)` (`src/processes/doctests.py:14-27`):
the three source lists are consulted in that order with one shared
accumulator, against the inputs of the user cases. -/
def suggested_doctest_inputs_generator (user_doctests : List Case)
    (llm_doctests crosshair_doctests ghostwriter_doctests : List Val) : List Val :=
  let userInputs := user_doctests.map Prod.fst
  dedupScan userInputs
    (dedupScan userInputs
      (dedupScan userInputs [] llm_doctests) crosshair_doctests)
    ghostwriter_doctests

/-- Reference definition following the spec's words for the suggestion step:
visit the concatenation of the source lists in order and keep each candidate
input that is not value-equal to an input of a user case and was not already
emitted earlier in the same call (`emitted` collects the kept ones). -/
def suggestSpec (userInputs : List Val) (emitted : List Val) : List Val → List Val
  | [] => []
  | x :: xs =>
    if x ∈ userInputs ∨ x ∈ emitted then suggestSpec userInputs emitted xs
    else x :: suggestSpec userInputs (x :: emitted) xs

/-- The per-input loop body of `suggested_doctests_list_generator`
(`src/processes/doctests.py:61-74`): invoke the candidate on each suggested
input under the fixed convention, pair the input with the returned value, or
with the string `"Error: " ++ str(e)` when the call raises.  Consing along
the recursion reproduces the Python appends in order. -/
def materializeLoop (invoke : Val → ExecRes) : List Val → List Case
  | [] => []
  | input :: rest =>
    match invoke input with
    | .ok output => (input, output) :: materializeLoop invoke rest
    | .exn e => (input, Val.str ("Error: " ++ e)) :: materializeLoop invoke rest

/-- Embedding of `suggested_doctests_list_generator(suggested_doctest_inputs,
function_name, function_code)` (`src/processes/doctests.py:48-76`): empty
input list short-circuits to `[]`; otherwise the calling convention is chosen
from the shape of the FIRST suggested input and applied to all of them. -/
def suggested_doctests_list_generator (inputs : List Val) (cand : Candidate) :
    List Case :=
  match inputs with
  | [] => []
  | first :: _ =>
    if ¬ first.isTuple then materializeLoop (invokeSingle cand) inputs
    else materializeLoop (invokeSpread cand) inputs

/-- The loop of `user_doctests_generator` (`src/processes/function_parser.py:43-52`),
run inside the `try`: for `i = i0, i0+1, ...` (with `steps` iterations left)
look up the form fields `doctest_i` and `output_i` and `eval` both strings.
A missing field (`KeyError`) or a failing `eval` raises inside the `try`, so
the whole function returns `[]`; otherwise the parsed pair is appended.
`details` models the form dictionary, `pyEval` models `eval` on literal
text (`none` = the evaluation raises). -/
def userDoctestsLoop (details : String → Option String) (pyEval : String → Option Val) :
    Nat → Nat → List Case → List Case
  | 0, _, acc => acc
  | steps + 1, i, acc =>
    match details ("doctest_" ++ toString i), details ("output_" ++ toString i) with
    | some inputStr, some outputStr =>
      match pyEval inputStr, pyEval outputStr with
      | some inputVal, some outputVal =>
        userDoctestsLoop details pyEval steps (i + 1) (acc ++ [(inputVal, outputVal)])
      | _, _ => []
    | _, _ => []

/-- Embedding of `user_doctests_generator(function_details)`
(`src/processes/function_parser.py:33-56`).
`int(function_details["number_of_doctests"])` runs OUTSIDE the `try`: when
the field is missing or does not parse as an integer (`pyInt` returns
`none`), the exception propagates, modelled by `Except.error ()`.  Otherwise
the loop over `range(1, num_tests + 1)` runs inside the `try` and any
exception there yields `.ok []`. -/
def user_doctests_generator (details : String → Option String)
    (pyInt : String → Option Int) (pyEval : String → Option Val) :
    Except Unit (List Case) :=
  match details "number_of_doctests" with
  | none => .error ()
  | some numStr =>
    match pyInt numStr with
    | none => .error ()
    | some n => .ok (userDoctestsLoop details pyEval n.toNat 1 [])

/-- Whether the loop body of `user_doctests_generator` gets through iteration
`i` without an exception: both form fields are present and both strings
`eval` successfully. -/
def caseParses (details : String → Option String) (pyEval : String → Option Val)
    (i : Nat) : Bool :=
  match details ("doctest_" ++ toString i), details ("output_" ++ toString i) with
  | some inputStr, some outputStr =>
    (pyEval inputStr).isSome && (pyEval outputStr).isSome
  | _, _ => false

/-- The accuracy ledger `function_passAccuracy`: a Python dict from candidate
code text to its failure count, modelled as an insertion-ordered association
list with in-place update of an existing key (`d[k] = v`). -/
abbrev Ledger : Type := List (String × Nat)

/-- Update `function_passAccuracy[function_code] = len(failed_doctests)`
(`src/LLM/LLM_Interface.py:504`): update the entry in place when the key is
already present, otherwise append it. -/
def ledgerInsert (ledger : Ledger) (key : String) (value : Nat) : Ledger :=
  if ledger.any (fun p => p.1 = key) then
    ledger.map (fun p => if p.1 = key then (key, value) else p)
  else ledger ++ [(key, value)]

/-- Result of `verified_code_gen`: the candidate code text on success, the
accuracy ledger on exhaustion (the Python function returns a `str` in the
first case and the `dict` in the second). -/
inductive VerifyResult where
  | success : String → VerifyResult
  | exhausted : Ledger → VerifyResult
deriving DecidableEq, Repr

/-- The arguments of one call `repromt_llm(function_code, doctests,
failed_doctests)` (`src/LLM/LLM_Interface.py:507`, signature at line 343):
the current candidate text, the doctest list, and the failing cases as
reported by `test(...)[0]`. -/
structure RepromtCall where
  code : String
  doctests : List Case
  failed : List Case
deriving DecidableEq, Repr

/-- The `while i < 5` loop of `verified_code_gen`
(`src/LLM/LLM_Interface.py:499-508`), instrumented.  `remaining = 5 - i` is
the structural fuel; `sem` maps a candidate code text to its call semantics
(the `exec`/lookup performed inside `test`); `reprompt` is the synthesizer's
response to the `i`-th regeneration request (the index makes an arbitrary
response sequence expressible).  Besides the Python return value the
embedding also returns the number of `test` invocations performed (the
attempt count) and the list of `repromt_llm` calls made, in order, so that
what the regeneration request receives can be stated. -/
def vcgLoop (sem : String → Candidate)
    (reprompt : Nat → String → List Case → List Case → String)
    (doctests : List Case) :
    Nat → String → Ledger → VerifyResult × Nat × List RepromtCall
  | 0, _, ledger => (.exhausted ledger, 0, [])
  | remaining + 1, code, ledger =>
    let failed := (test (sem code) doctests).1
    if failed = [] then (.success code, 1, [])
    else
      let ledger' := ledgerInsert ledger code failed.length
      if remaining = 0 then (.exhausted ledger', 1, [])
      else
        let next := reprompt (5 - remaining) code doctests failed
        let rest := vcgLoop sem reprompt doctests remaining next ledger'
        (rest.1, rest.2.1 + 1, ⟨code, doctests, failed⟩ :: rest.2.2)

/-- Embedding of `verified_code_gen(function_name, function_code, doctests)`
(`src/LLM/LLM_Interface.py:489-508`): start the loop with `i = 0`
(fuel `5`) and an empty ledger; the first component is the Python return
value. -/
def verified_code_gen (sem : String → Candidate)
    (reprompt : Nat → String → List Case → List Case → String)
    (function_code : String) (doctests : List Case) : VerifyResult :=
  (vcgLoop sem reprompt doctests 5 function_code []).1

/-- Number of `test` invocations (attempts) a run of `verified_code_gen`
performs. -/
def vcgAttempts (sem : String → Candidate)
    (reprompt : Nat → String → List Case → List Case → String)
    (function_code : String) (doctests : List Case) : Nat :=
  (vcgLoop sem reprompt doctests 5 function_code []).2.1

/-- The `repromt_llm` calls (regeneration requests) a run of
`verified_code_gen` makes, in order. -/
def vcgReprompts (sem : String → Candidate)
    (reprompt : Nat → String → List Case → List Case → String)
    (function_code : String) (doctests : List Case) : List RepromtCall :=
  (vcgLoop sem reprompt doctests 5 function_code []).2.2

/-- The calling convention `test` fixes from the first case's input shape
and then applies to every case of the collection. -/
def testConvention (doctests : List Case) (cand : Candidate) : Val → ExecRes :=
  match doctests with
  | [] => invokeSingle cand
  | first :: _ =>
    if ¬ first.1.isTuple then invokeSingle cand else invokeSpread cand

/-- The observed output `suggested_doctests_list_generator` records for one
input: the returned value, or the string `"Error: " ++ str(e)` on a raised
exception. -/
def materializeOut (invoke : Val → ExecRes) (input : Val) : Val :=
  match invoke input with
  | .ok output => output
  | .exn e => Val.str ("Error: " ++ e)

/-- The convention `suggested_doctests_list_generator` fixes from the first
suggested input's shape. -/
def materializeConvention (inputs : List Val) (cand : Candidate) : Val → ExecRes :=
  match inputs with
  | [] => invokeSingle cand
  | first :: _ =>
    if ¬ first.isTuple then invokeSingle cand else invokeSpread cand

section ConcreteRuns

/-- Seed input of the round-trip scenario: the tuple `(2, 3)`. -/
def seedInput : Val := Val.tup [Val.int 2, Val.int 3]

/-- Seed collection of the round-trip scenario: the single user case
`((2, 3), 6)` for `multiply`. -/
def seedDoctests : List Case := [(seedInput, Val.int 6)]

/-- Semantics environment with two candidate texts: `"add"` defines the
first (wrong) candidate `def multiply(a, b): return a+b`, any other text the
correct `def multiply(a, b): return a*b`. -/
def addMulSem : String → Candidate := fun code args =>
  match args with
  | [Val.int a, Val.int b] =>
    if code = "add" then .ok (Val.int (a + b)) else .ok (Val.int (a * b))
  | _ => .exn "TypeError"

/-- Synthesizer that answers every regeneration request with the correct
candidate text `"mul"`. -/
def mulReprompt : Nat → String → List Case → List Case → String :=
  fun _ _ _ _ => "mul"

/-- Candidate that echoes its positional-argument list back as a tuple, so
the arguments it was actually called with are visible in its output. -/
def echoCand : Candidate := fun args => .ok (Val.tup args)

/-- A collection of mixed input shapes: the first input is the bare value
`1`, the second is the tuple `(1, 2)`. -/
def mixedDoctests : List Case :=
  [(Val.int 1, Val.int 1), (Val.tup [Val.int 1, Val.int 2], Val.int 3)]

/-- Candidate whose every call raises an exception with message `"boom"`. -/
def boomCand : Candidate := fun _ => .exn "boom"

/-- Candidate modelling integer division `a // b`: raises
`ZeroDivisionError` when the second argument is `0`. -/
def divCand : Candidate := fun args =>
  match args with
  | [Val.int a, Val.int b] =>
    if b = 0 then .exn "ZeroDivisionError" else .ok (Val.int (a / b))
  | _ => .exn "TypeError"

/-- Candidate returning the constant `0` on every call. -/
def zeroCand : Candidate := fun _ => .ok (Val.int 0)

/-- Semantics environment in which every candidate text denotes the
constant-`0` candidate. -/
def zeroSem : String → Candidate := fun _ => zeroCand

/-- Semantics environment in which every candidate text denotes the
always-raising candidate. -/
def boomSem : String → Candidate := fun _ => boomCand

/-- Synthesizer that answers every regeneration request with the same
candidate text `"c"`. -/
def constReprompt : Nat → String → List Case → List Case → String :=
  fun _ _ _ _ => "c"

/-- A malformed function-details record: one doctest is announced, its input
field holds the unparsable text `"(1,"`, and the output field is missing. -/
def badDetails : String → Option String := fun key =>
  if key = "number_of_doctests" then some "1"
  else if key = "doctest_1" then some "(1," else none

/-- Model of `int(...)` accepting only the text `"1"`. -/
def badPyInt : String → Option Int := fun s =>
  if s = "1" then some 1 else none

/-- Model of `eval` on which every literal text fails to parse. -/
def pyEvalNone : String → Option Val := fun _ => none

end ConcreteRuns

/-! ## Lemmas about the candidate executor `test` -/

/-- Lemma: `test` runs the shared per-case loop under the convention fixed by the
first case's shape (for the empty collection both sides are `([], [])`). -/
theorem test_eq_testLoop (cand : Candidate) (doctests : List Case) :
    test cand doctests = testLoop (testConvention doctests cand) doctests := by
  cases doctests with
  | nil => rfl
  | cons first rest =>
    unfold test testConvention
    by_cases h : first.1.isTuple = true
    · simp [h]
    · simp [h]

/-- A case whose invocation raises lands in the failed list, and its input
paired with the actual value `"Error"` lands in the results list. -/
theorem testLoop_exn_mem (invoke : Val → ExecRes) (d : Case) (msg : String)
    (hexn : invoke d.1 = .exn msg) :
    ∀ l : List Case, d ∈ l →
      d ∈ (testLoop invoke l).1 ∧
        (d.1, Val.str "Error") ∈ (testLoop invoke l).2 := by
  intro l
  induction l with
  | nil => intro h; cases h
  | cons head tail ih =>
    intro hmem
    rcases List.mem_cons.mp hmem with heq | htail
    · subst heq
      simp only [testLoop, hexn]
      exact ⟨List.mem_cons_self _ _, List.mem_cons_self _ _⟩
    · have ⟨h1, h2⟩ := ih htail
      simp only [testLoop]
      cases hinv : invoke head.1 with
      | ok output =>
        simp only [hinv]
        by_cases hout : output = head.2
        · simpa [hout] using ⟨h1, h2⟩
        · simp only [if_neg hout]
          exact ⟨List.mem_cons_of_mem _ h1, List.mem_cons_of_mem _ h2⟩
      | exn e =>
        simp only [hinv]
        exact ⟨List.mem_cons_of_mem _ h1, List.mem_cons_of_mem _ h2⟩

/-- A case whose invocation returns a value different from its expected
output contributes `(input, actual)` to the results list. -/
theorem testLoop_fail_mem (invoke : Val → ExecRes) (d : Case) (v : Val)
    (hok : invoke d.1 = .ok v) (hneq : v ≠ d.2) :
    ∀ l : List Case, d ∈ l → (d.1, v) ∈ (testLoop invoke l).2 := by
  intro l
  induction l with
  | nil => intro h; cases h
  | cons head tail ih =>
    intro hmem
    rcases List.mem_cons.mp hmem with heq | htail
    · subst heq
      simp only [testLoop, hok, if_neg hneq]
      exact List.mem_cons_self _ _
    · have h2 := ih htail
      simp only [testLoop]
      cases hinv : invoke head.1 with
      | ok output =>
        simp only [hinv]
        by_cases hout : output = head.2
        · simpa [hout] using h2
        · simp only [if_neg hout]
          exact List.mem_cons_of_mem _ h2
      | exn e =>
        simp only [hinv]
        exact List.mem_cons_of_mem _ h2

/-- The two lists the per-case loop returns are parallel: the sequence of
inputs is the same on both sides. -/
theorem testLoop_parallel (invoke : Val → ExecRes) :
    ∀ l : List Case,
      ((testLoop invoke l).1).map Prod.fst = ((testLoop invoke l).2).map Prod.fst := by
  intro l
  induction l with
  | nil => rfl
  | cons head tail ih =>
    simp only [testLoop]
    cases hinv : invoke head.1 with
    | ok output =>
      simp only [hinv]
      by_cases hout : output = head.2
      · simpa [hout] using ih
      · simp only [if_neg hout, List.map_cons]
        rw [ih]
    | exn e =>
      simp only [hinv, List.map_cons]
      rw [ih]

/-- Claim C2, counterexample.  The collection `mixedDoctests` mixes a bare
input with a tuple input, yet `test` does not reject it: it invokes the
candidate on every case (two calls, visible in `testCalls`) and passes the
tuple input `(1, 2)` as the candidate's sole argument — the echo candidate
returns the one-element tuple `((1, 2),)`, proving the call was made with a
mis-applied convention rather than rejected. -/
theorem C2_counterexample :
    uniformShape mixedDoctests = false ∧
    testCalls mixedDoctests = [[Val.int 1], [Val.tup [Val.int 1, Val.int 2]]] ∧
    test echoCand mixedDoctests =
      ([(Val.int 1, Val.int 1), (Val.tup [Val.int 1, Val.int 2], Val.int 3)],
       [(Val.int 1, Val.tup [Val.int 1]),
        (Val.tup [Val.int 1, Val.int 2],
          Val.tup [Val.tup [Val.int 1, Val.int 2]])]) := by
  decide

/-- Claim C2, amended: the Candidate Executor does not reject a collection
whose cases mix tuple/non-tuple input shapes; it fixes the calling
convention from the first case's input shape and silently applies it to
every case.  In particular, when the first input is a non-tuple, any case
`d` — even one whose input is a tuple — is invoked with its input as the
candidate's sole positional argument, and a mismatching returned value is
recorded against that mis-applied call. -/
theorem C2_amended_first_convention_applies (cand : Candidate)
    (first : Case) (rest : List Case) (d : Case) (v : Val)
    (hmem : d ∈ first :: rest)
    (hshape : first.1.isTuple = false)
    (hok : cand [d.1] = .ok v)
    (hneq : v ≠ d.2) :
    (d.1, v) ∈ (test cand (first :: rest)).2 := by
  rw [test_eq_testLoop]
  have hconv : testConvention (first :: rest) cand = invokeSingle cand := by
    unfold testConvention
    simp [hshape]
  rw [hconv]
  exact testLoop_fail_mem (invokeSingle cand) d v hok hneq _ hmem

/-- Witness for the amended C2 theorem at the concrete mixed collection and
the echoing candidate. -/
theorem C2_amended_witness :
    (Val.tup [Val.int 1, Val.int 2], Val.tup [Val.tup [Val.int 1, Val.int 2]])
      ∈ (test echoCand
          ((Val.int 1, Val.int 1) ::
            [(Val.tup [Val.int 1, Val.int 2], Val.int 3)])).2 :=
  C2_amended_first_convention_applies echoCand (Val.int 1, Val.int 1)
    [(Val.tup [Val.int 1, Val.int 2], Val.int 3)]
    (Val.tup [Val.int 1, Val.int 2], Val.int 3)
    (Val.tup [Val.tup [Val.int 1, Val.int 2]])
    (by decide) (by decide) (by decide) (by decide)

/-- Claim C8: a doctest case whose invocation raises is included in the
failed list, is reported in the actual-results list with actual value
`"Error"`, and the two returned lists are parallel — the same inputs in the
same order (hence equal length), the first list carrying the expected
outputs, the second the actual ones. -/
theorem C8_errored_case_reported (cand : Candidate) (doctests : List Case)
    (d : Case) (msg : String)
    (hmem : d ∈ doctests)
    (hexn : testConvention doctests cand d.1 = .exn msg) :
    d ∈ (test cand doctests).1 ∧
    (d.1, Val.str "Error") ∈ (test cand doctests).2 ∧
    ((test cand doctests).1).map Prod.fst = ((test cand doctests).2).map Prod.fst ∧
    ((test cand doctests).1).length = ((test cand doctests).2).length := by
  rw [test_eq_testLoop]
  have h := testLoop_exn_mem (testConvention doctests cand) d msg hexn doctests hmem
  refine ⟨h.1, h.2, testLoop_parallel _ _, ?_⟩
  have hlen := congrArg List.length (testLoop_parallel (testConvention doctests cand) doctests)
  simpa using hlen

/-- Witness for C8: the division candidate raises `ZeroDivisionError` on the
input `(0, 0)` against the expected (non-`Error`) output `1`; the case is in
the failed list and reported with actual value `"Error"`. -/
theorem C8_witness :
    (Val.tup [Val.int 0, Val.int 0], Val.int 1)
        ∈ (test divCand [(Val.tup [Val.int 0, Val.int 0], Val.int 1)]).1 ∧
    (Val.tup [Val.int 0, Val.int 0], Val.str "Error")
        ∈ (test divCand [(Val.tup [Val.int 0, Val.int 0], Val.int 1)]).2 ∧
    ((test divCand [(Val.tup [Val.int 0, Val.int 0], Val.int 1)]).1).map Prod.fst
        = ((test divCand [(Val.tup [Val.int 0, Val.int 0], Val.int 1)]).2).map Prod.fst ∧
    ((test divCand [(Val.tup [Val.int 0, Val.int 0], Val.int 1)]).1).length
        = ((test divCand [(Val.tup [Val.int 0, Val.int 0], Val.int 1)]).2).length :=
  C8_errored_case_reported divCand [(Val.tup [Val.int 0, Val.int 0], Val.int 1)]
    (Val.tup [Val.int 0, Val.int 0], Val.int 1) "ZeroDivisionError"
    (by decide) (by decide)

/-- Claim C10: whenever invoking the candidate on a case's input raises, the
case lands in the failed list whatever its expected output is — a raising
invocation never counts as a pass, not even when the expected output is the
`"Error"` sentinel itself. -/
theorem C10_raising_never_passes (cand : Candidate) (doctests : List Case)
    (d : Case) (msg : String)
    (hmem : d ∈ doctests)
    (hexn : testConvention doctests cand d.1 = .exn msg) :
    d ∈ (test cand doctests).1 := by
  rw [test_eq_testLoop]
  exact (testLoop_exn_mem (testConvention doctests cand) d msg hexn doctests hmem).1

/-- Witness for C10 at a case whose expected output IS the `"Error"`
sentinel: the always-raising candidate still fails it. -/
theorem C10_witness :
    (Val.int 1, Val.str "Error")
      ∈ (test boomCand [(Val.int 1, Val.str "Error")]).1 :=
  C10_raising_never_passes boomCand [(Val.int 1, Val.str "Error")]
    (Val.int 1, Val.str "Error") "boom" (by decide) (by decide)

/-- The materialization loop pairs each input, in order, with its observed
output. -/
theorem materializeLoop_eq_map (invoke : Val → ExecRes) :
    ∀ l : List Val,
      materializeLoop invoke l = l.map (fun i => (i, materializeOut invoke i)) := by
  intro l
  induction l with
  | nil => rfl
  | cons head tail ih =>
    cases hinv : invoke head with
    | ok output =>
      simp only [materializeLoop, hinv, List.map_cons, ih]
      simp [materializeOut, hinv]
    | exn e =>
      simp only [materializeLoop, hinv, List.map_cons, ih]
      simp [materializeOut, hinv]

/-- Claim C6, counterexample: for the suggested input `1` and a candidate
raising with message `"boom"`, materialization pairs the input with the
string `"Error: boom"`, which is NOT the `"Error"` sentinel the rest of the
pipeline compares against. -/
theorem C6_counterexample :
    suggested_doctests_list_generator [Val.int 1] boomCand
      = [(Val.int 1, Val.str "Error: boom")] ∧
    Val.str "Error: boom" ≠ Val.str "Error" := by
  decide

/-- Claim C6, amended: materialization preserves the suggestion order
exactly — the outputs' inputs, in order, are precisely the suggested inputs
— and pairs each input with the value the candidate returns on it, or with
the string `"Error: " ++ str(e)` (not the bare `"Error"` sentinel) when the
invocation raises, under the convention fixed by the first input's shape. -/
theorem C6_amended_materialize (inputs : List Val) (cand : Candidate) :
    (suggested_doctests_list_generator inputs cand).map Prod.fst = inputs ∧
    ∀ p ∈ suggested_doctests_list_generator inputs cand,
      p.2 = materializeOut (materializeConvention inputs cand) p.1 := by
  have hslg : suggested_doctests_list_generator inputs cand
      = materializeLoop (materializeConvention inputs cand) inputs := by
    cases inputs with
    | nil => rfl
    | cons first rest =>
      unfold suggested_doctests_list_generator materializeConvention
      by_cases h : first.isTuple = true
      · simp [h]
      · simp [h]
  rw [hslg, materializeLoop_eq_map]
  constructor
  · simp [List.map_map, Function.comp_def]
  · intro p hp
    simp only [List.mem_map] at hp
    obtain ⟨i, _, rfl⟩ := hp
    rfl

/-- Witness for the amended C6 theorem at the raising candidate. -/
theorem C6_amended_witness :
    (suggested_doctests_list_generator [Val.int 1] boomCand).map Prod.fst
      = [Val.int 1] ∧
    (Val.int 1, Val.str "Error: boom").2
      = materializeOut (materializeConvention [Val.int 1] boomCand) (Val.int 1) :=
  ⟨(C6_amended_materialize [Val.int 1] boomCand).1,
   (C6_amended_materialize [Val.int 1] boomCand).2
     (Val.int 1, Val.str "Error: boom") (by decide)⟩

/-- Scanning one source list after another with the shared accumulator is
scanning their concatenation. -/
theorem dedupScan_append (userInputs : List Val) :
    ∀ (xs ys : List Val) (acc : List Val),
      dedupScan userInputs acc (xs ++ ys)
        = dedupScan userInputs (dedupScan userInputs acc xs) ys := by
  intro xs
  induction xs with
  | nil => intro ys acc; rfl
  | cons x tail ih =>
    intro ys acc
    by_cases h : x ∈ userInputs ∨ x ∈ acc
    · simp only [List.cons_append, dedupScan, if_pos h]
      exact ih ys acc
    · simp only [List.cons_append, dedupScan, if_neg h]
      exact ih ys (acc ++ [x])

/-- The accumulator-passing scan of the source equals the accumulator so far
followed by the spec's filter, provided the accumulator and the spec's
emitted-list hold the same values. -/
theorem dedupScan_eq_suggestSpec (userInputs : List Val) :
    ∀ (xs acc emitted : List Val),
      (∀ v, v ∈ acc ↔ v ∈ emitted) →
      dedupScan userInputs acc xs = acc ++ suggestSpec userInputs emitted xs := by
  intro xs
  induction xs with
  | nil => intro acc emitted _; simp [dedupScan, suggestSpec]
  | cons x tail ih =>
    intro acc emitted hiff
    by_cases h : x ∈ userInputs ∨ x ∈ acc
    · have h' : x ∈ userInputs ∨ x ∈ emitted := by
        rcases h with h | h
        · exact Or.inl h
        · exact Or.inr ((hiff x).mp h)
      simp only [dedupScan, suggestSpec, if_pos h, if_pos h']
      exact ih acc emitted hiff
    · have h' : ¬ (x ∈ userInputs ∨ x ∈ emitted) := by
        intro hc
        rcases hc with hc | hc
        · exact h (Or.inl hc)
        · exact h (Or.inr ((hiff x).mpr hc))
      simp only [dedupScan, suggestSpec, if_neg h, if_neg h']
      rw [ih (acc ++ [x]) (x :: emitted)]
      · simp
      · intro v
        simp only [List.mem_append, List.mem_singleton, List.mem_cons]
        rw [hiff v]
        tauto

/-- Nothing the spec-side filter emits is value-equal to a user input. -/
theorem suggestSpec_not_mem_user (userInputs : List Val) :
    ∀ (xs emitted : List Val) (x : Val),
      x ∈ suggestSpec userInputs emitted xs → x ∉ userInputs := by
  intro xs
  induction xs with
  | nil => intro emitted x h; cases h
  | cons y tail ih =>
    intro emitted x h
    by_cases hy : y ∈ userInputs ∨ y ∈ emitted
    · rw [suggestSpec, if_pos hy] at h
      exact ih emitted x h
    · rw [suggestSpec, if_neg hy] at h
      rcases List.mem_cons.mp h with rfl | h'
      · intro hc
        exact hy (Or.inl hc)
      · exact ih (y :: emitted) x h'

/-- Claim C7: the suggestion step returns exactly the inputs of the three
source lists, consulted in order, that are not value-equal to any user-case
input and not already emitted earlier in the same call (the spec-side filter
`suggestSpec` over the concatenation of the sources); as a pure function it
returns the same result when called twice with the same arguments; and no
input value-equal to a user-case input ever appears in the output. -/
theorem C7_suggestion_step (user_doctests : List Case)
    (llm crosshair ghostwriter : List Val) :
    suggested_doctest_inputs_generator user_doctests llm crosshair ghostwriter
      = suggestSpec (user_doctests.map Prod.fst) [] (llm ++ crosshair ++ ghostwriter) ∧
    suggested_doctest_inputs_generator user_doctests llm crosshair ghostwriter
      = suggested_doctest_inputs_generator user_doctests llm crosshair ghostwriter ∧
    ∀ x ∈ suggested_doctest_inputs_generator user_doctests llm crosshair ghostwriter,
      x ∉ user_doctests.map Prod.fst := by
  have hmain : suggested_doctest_inputs_generator user_doctests llm crosshair ghostwriter
      = suggestSpec (user_doctests.map Prod.fst) [] (llm ++ crosshair ++ ghostwriter) := by
    have e1 : suggested_doctest_inputs_generator user_doctests llm crosshair ghostwriter
        = dedupScan (user_doctests.map Prod.fst) [] (llm ++ crosshair ++ ghostwriter) := by
      show dedupScan (user_doctests.map Prod.fst)
          (dedupScan (user_doctests.map Prod.fst)
            (dedupScan (user_doctests.map Prod.fst) [] llm) crosshair) ghostwriter
        = dedupScan (user_doctests.map Prod.fst) [] (llm ++ crosshair ++ ghostwriter)
      rw [← dedupScan_append, ← dedupScan_append, List.append_assoc]
    rw [e1]
    have h := dedupScan_eq_suggestSpec (user_doctests.map Prod.fst)
      (llm ++ crosshair ++ ghostwriter) [] [] (fun _ => Iff.rfl)
    simpa using h
  refine ⟨hmain, rfl, ?_⟩
  intro x hx
  rw [hmain] at hx
  exact suggestSpec_not_mem_user (user_doctests.map Prod.fst) _ [] x hx

/-- Witness for C7: with the user case `(1, 2)` and sources
`[1, 3, 3]`, `[4, 3]`, `[1]`, the step returns `[3, 4]`, and the emitted
input `3` is not among the user inputs. -/
theorem C7_witness :
    Val.int 3 ∈ suggested_doctest_inputs_generator
      [(Val.int 1, Val.int 2)] [Val.int 1, Val.int 3, Val.int 3]
      [Val.int 4, Val.int 3] [Val.int 1] ∧
    Val.int 3 ∉ ([(Val.int 1, Val.int 2)] : List Case).map Prod.fst :=
  ⟨by decide,
   (C7_suggestion_step [(Val.int 1, Val.int 2)] [Val.int 1, Val.int 3, Val.int 3]
     [Val.int 4, Val.int 3] [Val.int 1]).2.2 (Val.int 3) (by decide)⟩

/-! ## Lemmas about the verification loop `verified_code_gen` -/

/-- A `.success` return from any state of the loop carries a candidate whose
failed set over the FULL doctest collection is empty. -/
theorem vcgLoop_success_failed_empty (sem : String → Candidate)
    (reprompt : Nat → String → List Case → List Case → String)
    (doctests : List Case) :
    ∀ (fuel : Nat) (code : String) (ledger : Ledger) (c : String),
      (vcgLoop sem reprompt doctests fuel code ledger).1 = .success c →
      (test (sem c) doctests).1 = [] := by
  intro fuel
  induction fuel with
  | zero =>
    intro code ledger c h
    simp [vcgLoop] at h
  | succ n ih =>
    intro code ledger c h
    by_cases hf : (test (sem code) doctests).1 = []
    · simp only [vcgLoop, if_pos hf] at h
      obtain rfl : code = c := by simpa using h
      exact hf
    · by_cases hn : n = 0
      · subst hn
        simp [vcgLoop, hf] at h
      · simp only [vcgLoop, if_neg hf, if_neg hn] at h
        exact ih _ _ c h

/-- Attempt count and regeneration count are bounded by the fuel. -/
theorem vcgLoop_attempts_le (sem : String → Candidate)
    (reprompt : Nat → String → List Case → List Case → String)
    (doctests : List Case) :
    ∀ (fuel : Nat) (code : String) (ledger : Ledger),
      (vcgLoop sem reprompt doctests fuel code ledger).2.1 ≤ fuel ∧
      (vcgLoop sem reprompt doctests fuel code ledger).2.2.length ≤ fuel - 1 := by
  intro fuel
  induction fuel with
  | zero =>
    intro code ledger
    simp [vcgLoop]
  | succ n ih =>
    intro code ledger
    by_cases hf : (test (sem code) doctests).1 = []
    · simp only [vcgLoop, if_pos hf]
      constructor
      · exact Nat.succ_le_succ (Nat.zero_le n)
      · simp
    · by_cases hn : n = 0
      · subst hn
        simp [vcgLoop, hf]
      · simp only [vcgLoop, if_neg hf, if_neg hn]
        have h := ih (reprompt (5 - n) code doctests (test (sem code) doctests).1)
          (ledgerInsert ledger code (test (sem code) doctests).1.length)
        constructor
        · exact Nat.succ_le_succ h.1
        · have h2 := h.2
          simp only [List.length_cons]
          omega

/-- Every regeneration request the loop issues contains the FULL doctest
collection and the failing cases exactly as the executor's first returned
list (the expected-output pairing) for the candidate being replaced. -/
theorem vcgLoop_reprompt_payload (sem : String → Candidate)
    (reprompt : Nat → String → List Case → List Case → String)
    (doctests : List Case) :
    ∀ (fuel : Nat) (code : String) (ledger : Ledger),
      ∀ call ∈ (vcgLoop sem reprompt doctests fuel code ledger).2.2,
        call.doctests = doctests ∧
        call.failed = (test (sem call.code) doctests).1 := by
  intro fuel
  induction fuel with
  | zero =>
    intro code ledger call h
    simp [vcgLoop] at h
  | succ n ih =>
    intro code ledger call h
    by_cases hf : (test (sem code) doctests).1 = []
    · simp only [vcgLoop, if_pos hf] at h
      cases h
    · by_cases hn : n = 0
      · subst hn
        simp [vcgLoop, hf] at h
      · simp only [vcgLoop, if_neg hf, if_neg hn] at h
        rcases List.mem_cons.mp h with rfl | htail
        · exact ⟨rfl, rfl⟩
        · exact ih _ _ call htail

/-- One-step unfolding of the loop at positive fuel. -/
theorem vcgLoop_succ_unfold (sem : String → Candidate)
    (reprompt : Nat → String → List Case → List Case → String)
    (doctests : List Case) (n : Nat) (code : String) (ledger : Ledger) :
    vcgLoop sem reprompt doctests (n + 1) code ledger
      = if (test (sem code) doctests).1 = [] then (.success code, 1, [])
        else if n = 0 then
          (.exhausted (ledgerInsert ledger code (test (sem code) doctests).1.length), 1, [])
        else
          ((vcgLoop sem reprompt doctests n
              (reprompt (5 - n) code doctests (test (sem code) doctests).1)
              (ledgerInsert ledger code (test (sem code) doctests).1.length)).1,
           (vcgLoop sem reprompt doctests n
              (reprompt (5 - n) code doctests (test (sem code) doctests).1)
              (ledgerInsert ledger code (test (sem code) doctests).1.length)).2.1 + 1,
           ⟨code, doctests, (test (sem code) doctests).1⟩ ::
             (vcgLoop sem reprompt doctests n
               (reprompt (5 - n) code doctests (test (sem code) doctests).1)
               (ledgerInsert ledger code (test (sem code) doctests).1.length)).2.2) := rfl

/-- Inserting a key already alone in the ledger leaves the one entry. -/
theorem ledgerInsert_self (c0 : String) (k : Nat) :
    ledgerInsert [(c0, k)] c0 k = [(c0, k)] := by
  simp [ledgerInsert]

/-- Inserting into the empty ledger appends the one entry. -/
theorem ledgerInsert_nil (c0 : String) (k : Nat) :
    ledgerInsert [] c0 k = [(c0, k)] := by
  simp [ledgerInsert]

/-- When the synthesizer always answers with the same failing candidate, the
loop started on that candidate with its single ledger entry spends all its
fuel, keeps the one ledger entry with the unchanged failure count, and makes
one regeneration request per non-final iteration. -/
theorem vcgLoop_const_exhausts (sem : String → Candidate)
    (reprompt : Nat → String → List Case → List Case → String)
    (doctests : List Case) (c0 : String)
    (hfail : (test (sem c0) doctests).1 ≠ [])
    (hrp : ∀ i c d f, reprompt i c d f = c0) :
    ∀ fuel, 1 ≤ fuel →
      vcgLoop sem reprompt doctests fuel c0
          [(c0, (test (sem c0) doctests).1.length)]
        = (.exhausted [(c0, (test (sem c0) doctests).1.length)], fuel,
           List.replicate (fuel - 1)
             ⟨c0, doctests, (test (sem c0) doctests).1⟩) := by
  intro fuel
  induction fuel with
  | zero => intro h; omega
  | succ n ih =>
    intro _
    rw [vcgLoop_succ_unfold, if_neg hfail]
    cases n with
    | zero =>
      rw [if_pos rfl, ledgerInsert_self]
      rfl
    | succ m =>
      have hn : ¬ (m + 1 = 0) := by omega
      rw [if_neg hn, hrp, ledgerInsert_self, ih (by omega)]
      simp [List.replicate_succ]

/-- Claim C1, counterexample.  For the seed case `((2, 3), 6)` and the
candidate returning `a + b`, the executor does compute the actual output `5`
(first conjunct), but the single regeneration request of the run carries the
failing case only as `((2, 3), 6)` — expected `6` — and the pair carrying the
actual output `5` appears neither among the request's failing cases nor in
its doctest collection: the actual output is never given to the
regeneration. -/
theorem C1_counterexample :
    (test (addMulSem "add") seedDoctests).2 = [(seedInput, Val.int 5)] ∧
    vcgReprompts addMulSem mulReprompt "add" seedDoctests
      = [{ code := "add", doctests := seedDoctests,
           failed := [(seedInput, Val.int 6)] }] ∧
    (seedInput, Val.int 5) ∉ ([(seedInput, Val.int 6)] : List Case) ∧
    (seedInput, Val.int 5) ∉ seedDoctests := by
  decide

/-- Claim C1, amended: every regeneration request of a verification-loop run
receives the entire current doctest collection together with the specific
failing cases paired with their EXPECTED outputs — exactly the executor's
first returned list for the candidate being replaced; the actual outputs the
candidate produced (the executor's second list) are not part of the
request. -/
theorem C1_amended_reprompt_payload (sem : String → Candidate)
    (reprompt : Nat → String → List Case → List Case → String)
    (function_code : String) (doctests : List Case) :
    ∀ call ∈ vcgReprompts sem reprompt function_code doctests,
      call.doctests = doctests ∧
      call.failed = (test (sem call.code) doctests).1 :=
  fun call h =>
    vcgLoop_reprompt_payload sem reprompt doctests 5 function_code [] call h

/-- Witness for the amended C1 theorem at the concrete seed run. -/
theorem C1_amended_witness :
    (RepromtCall.mk "add" seedDoctests [(seedInput, Val.int 6)]).doctests
      = seedDoctests ∧
    (RepromtCall.mk "add" seedDoctests [(seedInput, Val.int 6)]).failed
      = (test (addMulSem "add") seedDoctests).1 :=
  C1_amended_reprompt_payload addMulSem mulReprompt "add" seedDoctests
    ⟨"add", seedDoctests, [(seedInput, Val.int 6)]⟩ (by decide)

/-- Claim C3: whenever the verification loop returns candidate code as a
success, that code's failed set over the ENTIRE doctest collection it was
run with is empty — success is never declared on a subset. -/
theorem C3_success_only_on_full_pass (sem : String → Candidate)
    (reprompt : Nat → String → List Case → List Case → String)
    (function_code : String) (doctests : List Case) (c : String)
    (h : verified_code_gen sem reprompt function_code doctests = .success c) :
    (test (sem c) doctests).1 = [] :=
  vcgLoop_success_failed_empty sem reprompt doctests 5 function_code [] c h

/-- Witness for C3: a run that succeeds immediately, with the conclusion
evaluated at it. -/
theorem C3_witness :
    verified_code_gen zeroSem mulReprompt "z" [(Val.int 1, Val.int 0)]
      = .success "z" ∧
    (test (zeroSem "z") [(Val.int 1, Val.int 0)]).1 = [] :=
  ⟨by decide,
   C3_success_only_on_full_pass zeroSem mulReprompt "z"
     [(Val.int 1, Val.int 0)] "z" (by decide)⟩

/-- Claim C4: for every semantics environment and every synthesizer response
function, the verification loop — a total function in this embedding, so it
terminates on all inputs — performs at most 5 attempts (invocations of
`test`): the first generation plus at most 4 regeneration requests. -/
theorem C4_bounded_attempts (sem : String → Candidate)
    (reprompt : Nat → String → List Case → List Case → String)
    (function_code : String) (doctests : List Case) :
    vcgAttempts sem reprompt function_code doctests ≤ 5 ∧
    (vcgReprompts sem reprompt function_code doctests).length ≤ 4 := by
  have h := vcgLoop_attempts_le sem reprompt doctests 5 function_code []
  refine ⟨h.1, ?_⟩
  unfold vcgReprompts
  have h2 := h.2
  omega

/-- Claim C5: with a non-empty collection and a synthesizer that always
returns the same incorrect candidate text `c0`, the loop exhausts after
exactly 5 attempts and returns the accuracy ledger with exactly one entry:
`c0` mapped to its unchanged failure count. -/
theorem C5_exhaustion_single_entry (sem : String → Candidate)
    (reprompt : Nat → String → List Case → List Case → String)
    (c0 : String) (doctests : List Case)
    (_hne : doctests ≠ [])
    (hfail : (test (sem c0) doctests).1 ≠ [])
    (hrp : ∀ i c d f, reprompt i c d f = c0) :
    verified_code_gen sem reprompt c0 doctests
      = .exhausted [(c0, (test (sem c0) doctests).1.length)] ∧
    vcgAttempts sem reprompt c0 doctests = 5 := by
  have h5 : vcgLoop sem reprompt doctests 5 c0 []
      = (.exhausted [(c0, (test (sem c0) doctests).1.length)], 5,
         ⟨c0, doctests, (test (sem c0) doctests).1⟩ ::
           List.replicate 3 ⟨c0, doctests, (test (sem c0) doctests).1⟩) := by
    rw [vcgLoop_succ_unfold, if_neg hfail]
    have h4 : ¬ (4 = 0) := by omega
    rw [if_neg h4, hrp, ledgerInsert_nil,
      vcgLoop_const_exhausts sem reprompt doctests c0 hfail hrp 4 (by omega)]
  constructor
  · unfold verified_code_gen
    rw [h5]
  · unfold vcgAttempts
    rw [h5]

/-- Witness for C5: the always-raising semantics with the constant
synthesizer response `"c"` on the one-case collection `[(0, 0)]`. -/
theorem C5_witness :
    ([(Val.int 0, Val.int 0)] : List Case) ≠ [] ∧
    (test (boomSem "c") [(Val.int 0, Val.int 0)]).1 ≠ [] ∧
    verified_code_gen boomSem constReprompt "c" [(Val.int 0, Val.int 0)]
      = .exhausted [("c", 1)] ∧
    vcgAttempts boomSem constReprompt "c" [(Val.int 0, Val.int 0)] = 5 := by
  refine ⟨by decide, by decide, ?_⟩
  have h := C5_exhaustion_single_entry boomSem constReprompt "c"
    [(Val.int 0, Val.int 0)] (by decide) (by decide) (fun _ _ _ _ => rfl)
  exact ⟨by rw [h.1]; decide, h.2⟩

/-- When some iteration in range fails to parse, the doctest loop — which
runs inside the `try` — ends with the caught-exception result `[]`,
whatever was accumulated before. -/
theorem userDoctestsLoop_bad (details : String → Option String)
    (pyEval : String → Option Val) :
    ∀ (steps i0 : Nat) (acc : List Case),
      (∃ j, i0 ≤ j ∧ j < i0 + steps ∧ caseParses details pyEval j = false) →
      userDoctestsLoop details pyEval steps i0 acc = [] := by
  intro steps
  induction steps with
  | zero =>
    intro i0 acc h
    obtain ⟨j, h1, h2, _⟩ := h
    omega
  | succ n ih =>
    intro i0 acc h
    obtain ⟨j, hj1, hj2, hbad⟩ := h
    by_cases hi : caseParses details pyEval i0 = true
    · have hji : j ≠ i0 := by
        intro he
        rw [he] at hbad
        rw [hbad] at hi
        exact Bool.noConfusion hi
      cases hd : details ("doctest_" ++ toString i0) with
      | none =>
        simp only [caseParses, hd] at hi
        exact Bool.noConfusion hi
      | some istr =>
        cases ho : details ("output_" ++ toString i0) with
        | none =>
          simp only [caseParses, hd, ho] at hi
          exact Bool.noConfusion hi
        | some ostr =>
          cases hei : pyEval istr with
          | none =>
            simp only [caseParses, hd, ho, hei] at hi
            simp at hi
          | some iv =>
            cases heo : pyEval ostr with
            | none =>
              simp only [caseParses, hd, ho, hei, heo] at hi
              simp at hi
            | some ov =>
              simp only [userDoctestsLoop, hd, ho, hei, heo]
              exact ih (i0 + 1) (acc ++ [(iv, ov)]) ⟨j, by omega, by omega, hbad⟩
    · cases hd : details ("doctest_" ++ toString i0) with
      | none =>
        simp only [userDoctestsLoop, hd]
      | some istr =>
        cases ho : details ("output_" ++ toString i0) with
        | none =>
          simp only [userDoctestsLoop, hd, ho]
        | some ostr =>
          cases hei : pyEval istr with
          | none =>
            simp only [userDoctestsLoop, hd, ho, hei]
          | some iv =>
            cases heo : pyEval ostr with
            | none =>
              simp only [userDoctestsLoop, hd, ho, hei, heo]
            | some ov =>
              exfalso
              apply hi
              simp only [caseParses, hd, ho, hei, heo]
              rfl

/-- Claim C9: once the doctest count itself has been read (this happens
outside the `try`), any malformation among the doctest input/output fields
of the record — a missing field or literal text that fails to `eval` — makes
`user_doctests_generator` return the empty list rather than raise. -/
theorem C9_malformed_returns_empty (details : String → Option String)
    (pyInt : String → Option Int) (pyEval : String → Option Val)
    (numStr : String) (n : Int)
    (hnum : details "number_of_doctests" = some numStr)
    (hint : pyInt numStr = some n)
    (i : Nat) (h1 : 1 ≤ i) (h2 : i ≤ n.toNat)
    (hbad : caseParses details pyEval i = false) :
    user_doctests_generator details pyInt pyEval = .ok [] := by
  simp only [user_doctests_generator, hnum, hint]
  exact congrArg Except.ok
    (userDoctestsLoop_bad details pyEval n.toNat 1 [] ⟨i, h1, by omega, hbad⟩)

/-- Witness for C9 at the concrete malformed record: one announced doctest,
unparsable input text, missing output field. -/
theorem C9_witness :
    user_doctests_generator badDetails badPyInt pyEvalNone = .ok [] :=
  C9_malformed_returns_empty badDetails badPyInt pyEvalNone "1" 1
    (by decide) (by decide) 1 (by decide) (by decide) (by decide)

end ARHF
